import Mathlib

/-!
Shallow embedding of `packages/jest-console/src/CustomConsole.ts`: a console
decorator that indents output by group depth, keeps named counters and timers,
and routes every line through a pluggable format hook before writing to one of
two sinks.  Streams are modelled as event lists (a clear-line event followed by
a write event per logged line); the wall clock is an explicit parameter of the
time-related methods.
-/

/-- Modelled from the spec: the message kinds of the `LogType` union in
`jest-console/src/types.ts` (the types file is not part of the sources given,
only its union members as named by the spec). -/
inductive LogType where
  | assert
  | count
  | debug
  | dir
  | dirxml
  | error
  | group
  | groupCollapsed
  | info
  | log
  | time
  | warn
deriving DecidableEq

/-- An event on an output stream: either clearing the in-progress line
(`clearLine` from jest-util) or writing one full line. -/
inductive OutEvent where
  | clear : OutEvent
  | write : String → OutEvent
deriving DecidableEq

/-- The mutable state of a `CustomConsole` instance: the format hook fixed at
construction, the counters and timers mappings (JS objects, modelled as
association lists keyed by label), the group depth, and the two sinks. -/
structure ConsoleState where
  formatBuffer : LogType → String → String
  counters : List (String × Int)
  timers : List (String × Int)
  groupDepth : Nat
  stdout : List OutEvent
  stderr : List OutEvent

/-- Lookup of a property on a JS object modelled as an association list. -/
def lookupKey {α : Type} : List (String × α) → String → Option α
  | [], _ => none
  | (k, v) :: rest, l => if k = l then some v else lookupKey rest l

/-- Property assignment on a JS object modelled as an association list. -/
def setKey {α : Type} : List (String × α) → String → α → List (String × α)
  | [], l, v => [(l, v)]
  | (k, w) :: rest, l, v =>
      if k = l then (l, v) :: rest else (k, w) :: setKey rest l v

/-- The `delete obj[label]` operation on a JS object. -/
def delKey {α : Type} (m : List (String × α)) (l : String) : List (String × α) :=
  m.filter (fun p => p.1 != l)

/-- JS falsiness of `counters[label]`: an absent property (`undefined`) and the
number `0` are falsy, every other number is truthy. -/
def jsFalsyInt : Option Int → Bool
  | none => true
  | some v => v == 0

/-- JS truthiness of the optional `title : string | undefined` argument:
`undefined` and the empty string are falsy. -/
def jsTruthyTitle : Option String → Bool
  | none => false
  | some s => s != ""

/-- Indentation for a given group depth: the two-space string repeated
`depth` times. -/
def indentStr (depth : Nat) : String :=
  String.join (List.replicate depth "  ")

/-- Modelled from the spec: the text-formatting utility (`util.format`) as it
behaves on placeholder-free string arguments — arguments joined by single
spaces, an absent first argument printed as "undefined". -/
def formatArgs (firstArg : Option String) (args : List String) : String :=
  String.intercalate " " ((match firstArg with
    | some s => s
    | none => "undefined") :: args)

/-- Modelled from the spec: the bold/style utility (`chalk.bold`) wraps the
group-title text in terminal bold style markers; purely cosmetic. -/
def chalkBold (s : String) : String :=
  "\x1b[1m" ++ s ++ "\x1b[22m"

/-- Modelled from the spec: the elapsed-time formatting utility (`formatTime`
from jest-util, not part of the sources given) renders an elapsed duration as
text; the claims depend only on which duration is rendered. -/
def formatTime (time : Int) : String :=
  toString time ++ " ms"

/-- Modelled from the spec: the text of `error.toString()` for a Node
assertion failure; it carries the supplied message after the error-name
prefix, or a generic text when no message is supplied. -/
def assertionErrorString : Option String → String
  | some m => "AssertionError [ERR_ASSERTION]: " ++ m
  | none => "AssertionError [ERR_ASSERTION]: The expression evaluated to a falsy value"

/-- The default format hook supplied by the constructor:
`(_type, message) => message`. -/
def defaultFormatter : LogType → String → String :=
  fun _ message => message

namespace CustomConsole

/-- The constructor: both sinks start empty, counters and timers start as
empty objects, group depth starts at 0. -/
def new (fmt : LogType → String → String := defaultFormatter) : ConsoleState :=
  { formatBuffer := fmt
    counters := []
    timers := []
    groupDepth := 0
    stdout := []
    stderr := [] }

/-- Method `_log`: clear the in-progress stdout line, then write the message indented
by the group depth and passed through the format hook. -/
def _log (st : ConsoleState) (type : LogType) (message : String) : ConsoleState :=
  { st with stdout := st.stdout ++
      [OutEvent.clear,
       OutEvent.write (st.formatBuffer type (indentStr st.groupDepth ++ message))] }

/-- Method `_logError`: as `_log` but on the stderr sink. -/
def _logError (st : ConsoleState) (type : LogType) (message : String) : ConsoleState :=
  { st with stderr := st.stderr ++
      [OutEvent.clear,
       OutEvent.write (st.formatBuffer type (indentStr st.groupDepth ++ message))] }

/-- Method `assert(value, message)`: the assert utility of Node throws on a
falsy value; the catch block logs the text of the error under kind `assert`.
A truthy value does nothing. -/
def assert (st : ConsoleState) (value : Bool) (message : Option String := none) :
    ConsoleState :=
  if value then st else _logError st LogType.assert (assertionErrorString message)

/-- The counters object after the guard
`if (!this._counters[label]) this._counters[label] = 0;`. -/
def countersAfterGuard (counters : List (String × Int)) (label : String) :
    List (String × Int) :=
  if jsFalsyInt (lookupKey counters label) then setKey counters label 0 else counters

/-- Method `count(label)`: reset a falsy counter to 0, pre-increment it, store the
new value and log `label: value`. -/
def count (st : ConsoleState) (label : String := "default") : ConsoleState :=
  let counters1 := countersAfterGuard st.counters label
  let newVal := (lookupKey counters1 label).getD 0 + 1
  _log { st with counters := setKey counters1 label newVal } LogType.count
    (label ++ ": " ++ toString newVal)

/-- Method `countReset(label)`: set the counter for the label to 0. -/
def countReset (st : ConsoleState) (label : String := "default") : ConsoleState :=
  { st with counters := setKey st.counters label 0 }

/-- Method `debug(firstArg, ...args)`. -/
def debug (st : ConsoleState) (firstArg : String) (args : List String := []) :
    ConsoleState :=
  _log st LogType.debug (formatArgs (some firstArg) args)

/-- Method `dir(firstArg, options)`: the inspected representation of the value is
taken as input (the inspection utility is an external collaborator). -/
def dir (st : ConsoleState) (representation : String) : ConsoleState :=
  _log st LogType.dir representation

/-- Method `dirxml(firstArg, ...args)`. -/
def dirxml (st : ConsoleState) (firstArg : String) (args : List String := []) :
    ConsoleState :=
  _log st LogType.dirxml (formatArgs (some firstArg) args)

/-- Method `error(firstArg, ...args)`: formatted and written to the stderr sink. -/
def error (st : ConsoleState) (firstArg : String) (args : List String := []) :
    ConsoleState :=
  _logError st LogType.error (formatArgs (some firstArg) args)

/-- Method `group(title?, ...args)`: increment the depth first; then, when the title
is truthy or extra arguments are present, log the bold title line. -/
def group (st : ConsoleState) (title : Option String := none)
    (args : List String := []) : ConsoleState :=
  let st1 := { st with groupDepth := st.groupDepth + 1 }
  if jsTruthyTitle title || args.length > 0 then
    _log st1 LogType.group (chalkBold (formatArgs title args))
  else st1

/-- Method `groupCollapsed(title?, ...args)`: same behavior as `group` under its own
kind. -/
def groupCollapsed (st : ConsoleState) (title : Option String := none)
    (args : List String := []) : ConsoleState :=
  let st1 := { st with groupDepth := st.groupDepth + 1 }
  if jsTruthyTitle title || args.length > 0 then
    _log st1 LogType.groupCollapsed (chalkBold (formatArgs title args))
  else st1

/-- Method `groupEnd()`: decrement the depth when it is positive. -/
def groupEnd (st : ConsoleState) : ConsoleState :=
  if st.groupDepth > 0 then { st with groupDepth := st.groupDepth - 1 } else st

/-- Method `info(firstArg, ...args)`. -/
def info (st : ConsoleState) (firstArg : String) (args : List String := []) :
    ConsoleState :=
  _log st LogType.info (formatArgs (some firstArg) args)

/-- Method `log(firstArg, ...args)`. -/
def log (st : ConsoleState) (firstArg : String) (args : List String := []) :
    ConsoleState :=
  _log st LogType.log (formatArgs (some firstArg) args)

/-- Method `time(label)`: a no-op when a timer for the label is already running
(a stored Date object is always truthy); otherwise record the current
instant. -/
def time (st : ConsoleState) (now : Int) (label : String := "default") :
    ConsoleState :=
  if (lookupKey st.timers label).isSome then st
  else { st with timers := setKey st.timers label now }

/-- Method `timeEnd(label)`: when a timer is running, log the elapsed time and delete
the timer; otherwise do nothing. -/
def timeEnd (st : ConsoleState) (now : Int) (label : String := "default") :
    ConsoleState :=
  match lookupKey st.timers label with
  | some startTime =>
      let st1 := _log st LogType.time (label ++ ": " ++ formatTime (now - startTime))
      { st1 with timers := delKey st1.timers label }
  | none => st

/-- Method `timeLog(label, ...data)`: when a timer is running, log the elapsed time
together with the extra data, without removing the timer; otherwise do
nothing. -/
def timeLog (st : ConsoleState) (now : Int) (label : String := "default")
    (data : List String := []) : ConsoleState :=
  match lookupKey st.timers label with
  | some startTime =>
      _log st LogType.time
        (formatArgs (some (label ++ ": " ++ formatTime (now - startTime))) data)
  | none => st

/-- Method `warn(firstArg, ...args)`: formatted and written to the stderr sink. -/
def warn (st : ConsoleState) (firstArg : String) (args : List String := []) :
    ConsoleState :=
  _logError st LogType.warn (formatArgs (some firstArg) args)

end CustomConsole

/-- The lines actually written to a stream, without the clear-line events. -/
def writesOf (evs : List OutEvent) : List String :=
  evs.filterMap (fun e => match e with
    | OutEvent.clear => none
    | OutEvent.write s => some s)

/-- Strip the terminal bold style markers from a list of characters. -/
def stripBoldChars : List Char → List Char
  | [] => []
  | '\x1b' :: '[' :: '1' :: 'm' :: rest => stripBoldChars rest
  | '\x1b' :: '[' :: '2' :: '2' :: 'm' :: rest => stripBoldChars rest
  | c :: rest => c :: stripBoldChars rest

/-- Strip the terminal bold style markers from a line. -/
def stripBold (s : String) : String :=
  String.mk (stripBoldChars s.toList)

/-- The example scenario of the spec: identity format hook, then
`group("outer")`, `log("hello")`, `group("inner")`, `log("world")`,
`groupEnd()`, `groupEnd()`, `log("done")`. -/
def scenarioC1 : ConsoleState :=
  CustomConsole.log
    (CustomConsole.groupEnd
      (CustomConsole.groupEnd
        (CustomConsole.log
          (CustomConsole.group
            (CustomConsole.log
              (CustomConsole.group CustomConsole.new (some "outer"))
              "hello")
            (some "inner"))
          "world")))
    "done"

/-- The stdout lines of the scenario, ignoring styling and the partial-line
clears. -/
def scenarioC1Lines : List String :=
  (writesOf scenarioC1.stdout).map stripBold

/-- A call in a `group`/`groupEnd` sequence (titles and arguments omitted:
they do not affect the depth). -/
inductive GroupCall where
  | openGroup : GroupCall
  | closeGroup : GroupCall
deriving DecidableEq

/-- Run a sequence of `group`/`groupEnd` calls on a logger state. -/
def runGroupCalls (st : ConsoleState) : List GroupCall → ConsoleState
  | [] => st
  | GroupCall.openGroup :: rest => runGroupCalls (CustomConsole.group st) rest
  | GroupCall.closeGroup :: rest => runGroupCalls (CustomConsole.groupEnd st) rest

/-- Number of `group` calls in a sequence. -/
def countOpen : List GroupCall → Nat
  | [] => 0
  | GroupCall.openGroup :: rest => countOpen rest + 1
  | GroupCall.closeGroup :: rest => countOpen rest

/-- Number of `groupEnd` calls in a sequence. -/
def countClose : List GroupCall → Nat
  | [] => 0
  | GroupCall.openGroup :: rest => countClose rest
  | GroupCall.closeGroup :: rest => countClose rest + 1

/-- A `count`/`countReset` call with its label. -/
inductive CountOp where
  | doCount : String → CountOp
  | doReset : String → CountOp

/-- Run a sequence of `count`/`countReset` calls on a logger state. -/
def runCountOps (st : ConsoleState) : List CountOp → ConsoleState
  | [] => st
  | CountOp.doCount l :: rest => runCountOps (CustomConsole.count st l) rest
  | CountOp.doReset l :: rest => runCountOps (CustomConsole.countReset st l) rest

/-- Whether `pat` is an initial segment of `l`. -/
def charsHavePre : List Char → List Char → Bool
  | [], _ => true
  | _ :: _, [] => false
  | p :: ps, c :: cs => p == c && charsHavePre ps cs

/-- Whether `pat` occurs as a contiguous segment of `l`. -/
def charsContain (pat : List Char) : List Char → Bool
  | [] => pat.isEmpty
  | c :: cs => charsHavePre pat (c :: cs) || charsContain pat cs

/-- Whether the string `pat` occurs as a contiguous substring of `s`. -/
def strContains (s pat : String) : Bool :=
  charsContain pat.toList s.toList

/-- The counters mappings reachable by the program hold only non-negative
values. -/
def countersNonneg (m : List (String × Int)) : Prop :=
  ∀ p ∈ m, 0 ≤ p.2

/-- The witness sequence for the amended depth law: two opens, one close. -/
def gcWitnessSeq : List GroupCall :=
  [GroupCall.openGroup, GroupCall.openGroup, GroupCall.closeGroup]

/-- The sequence refuting the unconditional depth law: a close at depth 0
followed by an open. -/
def gcCexSeq : List GroupCall :=
  [GroupCall.closeGroup, GroupCall.openGroup]

theorem charsContain_append (pat a b : List Char)
    (h : charsContain pat b = true) : charsContain pat (a ++ b) = true := by
  induction a with
  | nil => simpa using h
  | cons x xs ih =>
      show (charsHavePre pat (x :: (xs ++ b)) || charsContain pat (xs ++ b)) = true
      rw [Bool.or_eq_true]
      exact Or.inr ih

theorem lookupKey_setKey_self {α : Type} (m : List (String × α)) (l : String)
    (v : α) : lookupKey (setKey m l v) l = some v := by
  induction m with
  | nil => simp [setKey, lookupKey]
  | cons p rest ih =>
      by_cases h : p.1 = l
      · simp [setKey, h, lookupKey]
      · simp [setKey, h, lookupKey, ih]

theorem mem_of_lookupKey {α : Type} (m : List (String × α)) (l : String)
    (v : α) (h : lookupKey m l = some v) : (l, v) ∈ m := by
  induction m with
  | nil => simp [lookupKey] at h
  | cons p rest ih =>
      rw [lookupKey] at h
      by_cases hk : p.1 = l
      · simp [hk] at h
        have hp : p = (l, v) := by cases p; simp_all
        rw [hp]
        exact List.mem_cons_self _ _
      · simp [hk] at h
        exact List.mem_cons_of_mem _ (ih h)

theorem setKey_forall {α : Type} (P : α → Prop) (m : List (String × α))
    (l : String) (v : α) (hm : ∀ p ∈ m, P p.2) (hv : P v) :
    ∀ p ∈ setKey m l v, P p.2 := by
  induction m with
  | nil => simpa [setKey] using hv
  | cons q rest ih =>
      intro p hp
      rw [setKey] at hp
      by_cases hk : q.1 = l
      · simp [hk] at hp
        rcases hp with hp | hp
        · rw [hp]; exact hv
        · exact hm p (List.mem_cons_of_mem _ hp)
      · simp [hk] at hp
        rcases hp with hp | hp
        · rw [hp]; exact hm q (List.mem_cons_self _ _)
        · exact ih (fun r hr => hm r (List.mem_cons_of_mem _ hr)) p hp

theorem group_groupDepth (st : ConsoleState) (t : Option String)
    (a : List String) : (CustomConsole.group st t a).groupDepth =
      st.groupDepth + 1 := by
  rw [CustomConsole.group]
  split <;> rfl

theorem groupEnd_groupDepth (st : ConsoleState) :
    (CustomConsole.groupEnd st).groupDepth = st.groupDepth - 1 := by
  rw [CustomConsole.groupEnd]
  split
  · rfl
  · omega

/-- C3: `assert(false, "boom")` appends to the error sink exactly one
clear-then-write pair whose written line contains `"boom"`; it leaves stdout
untouched, and `assert` with a truthy first argument changes nothing at
all.  (The embedding is total, so no exception can propagate.) -/
theorem assert_behavior (st : ConsoleState) (m : Option String)
    (h : st.formatBuffer = defaultFormatter) :
    (CustomConsole.assert st false (some "boom")).stderr =
        st.stderr ++ [OutEvent.clear,
          OutEvent.write (indentStr st.groupDepth ++
            assertionErrorString (some "boom"))]
    ∧ strContains (indentStr st.groupDepth ++
        assertionErrorString (some "boom")) "boom" = true
    ∧ (CustomConsole.assert st false (some "boom")).stdout = st.stdout
    ∧ CustomConsole.assert st true m = st := by
  refine ⟨?_, ?_, ?_, ?_⟩
  · simp [CustomConsole.assert, CustomConsole._logError, h, defaultFormatter]
  · rw [strContains]
    have hsplit : (indentStr st.groupDepth ++
        assertionErrorString (some "boom")).toList =
        (indentStr st.groupDepth).toList ++
          (assertionErrorString (some "boom")).toList := by
      simp [String.toList]
    rw [hsplit]
    exact charsContain_append _ _ _ (by decide)
  · rfl
  · rfl

/-- Witness for C3 at the freshly constructed logger. -/
theorem assert_behavior_witness :
    (CustomConsole.new.formatBuffer = defaultFormatter)
    ∧ ((CustomConsole.assert CustomConsole.new false (some "boom")).stderr =
          CustomConsole.new.stderr ++ [OutEvent.clear,
            OutEvent.write (indentStr CustomConsole.new.groupDepth ++
              assertionErrorString (some "boom"))]
       ∧ strContains (indentStr CustomConsole.new.groupDepth ++
            assertionErrorString (some "boom")) "boom" = true
       ∧ (CustomConsole.assert CustomConsole.new false (some "boom")).stdout =
            CustomConsole.new.stdout
       ∧ CustomConsole.assert CustomConsole.new true none = CustomConsole.new) :=
  ⟨rfl, assert_behavior CustomConsole.new none rfl⟩

/-- C6: `timeEnd` on a label with no running timer returns the state
unchanged: no output on either sink and no change to timers, counters or
group depth. -/
theorem timeEnd_unknown_label (st : ConsoleState) (now : Int) (L : String)
    (h : lookupKey st.timers L = none) :
    CustomConsole.timeEnd st now L = st := by
  rw [CustomConsole.timeEnd, h]

/-- Witness for C6 on the fresh logger, whose timers object is empty. -/
theorem timeEnd_unknown_label_witness :
    lookupKey CustomConsole.new.timers "x" = none
    ∧ CustomConsole.timeEnd CustomConsole.new 5 "x" = CustomConsole.new :=
  ⟨rfl, timeEnd_unknown_label CustomConsole.new 5 "x" rfl⟩

/-- C9: `group("")` — an empty-string title, no further arguments — only
increments the group depth and writes nothing (the empty string is falsy);
likewise `groupCollapsed("")`. -/
theorem group_empty_title (st : ConsoleState) :
    CustomConsole.group st (some "") [] =
        { st with groupDepth := st.groupDepth + 1 }
    ∧ CustomConsole.groupCollapsed st (some "") [] =
        { st with groupDepth := st.groupDepth + 1 } :=
  ⟨rfl, rfl⟩

/-- C8: every line funnels through `_log`/`_logError`: the sink receives a
clear event then one write whose text is the two-space indent repeated
`groupDepth` times, concatenated with the message and passed through the
format hook; the hook defaults to the identity at construction; and each
public writing method delegates to `_log`/`_logError` with its own kind and
its formatted arguments. -/
theorem formatting_rule (st : ConsoleState) (ty : LogType) (msg : String)
    (firstArg : String) (args : List String) (rep : String) :
    (CustomConsole._log st ty msg).stdout = st.stdout ++ [OutEvent.clear,
        OutEvent.write (st.formatBuffer ty (indentStr st.groupDepth ++ msg))]
    ∧ (CustomConsole._logError st ty msg).stderr = st.stderr ++ [OutEvent.clear,
        OutEvent.write (st.formatBuffer ty (indentStr st.groupDepth ++ msg))]
    ∧ CustomConsole.new.formatBuffer = defaultFormatter
    ∧ defaultFormatter ty msg = msg
    ∧ CustomConsole.log st firstArg args =
        CustomConsole._log st LogType.log (formatArgs (some firstArg) args)
    ∧ CustomConsole.info st firstArg args =
        CustomConsole._log st LogType.info (formatArgs (some firstArg) args)
    ∧ CustomConsole.debug st firstArg args =
        CustomConsole._log st LogType.debug (formatArgs (some firstArg) args)
    ∧ CustomConsole.dirxml st firstArg args =
        CustomConsole._log st LogType.dirxml (formatArgs (some firstArg) args)
    ∧ CustomConsole.dir st rep = CustomConsole._log st LogType.dir rep
    ∧ CustomConsole.error st firstArg args =
        CustomConsole._logError st LogType.error (formatArgs (some firstArg) args)
    ∧ CustomConsole.warn st firstArg args =
        CustomConsole._logError st LogType.warn (formatArgs (some firstArg) args) :=
  ⟨rfl, rfl, rfl, rfl, rfl, rfl, rfl, rfl, rfl, rfl, rfl⟩

theorem lookupKey_delKey_self {α : Type} (m : List (String × α)) (l : String) :
    lookupKey (delKey m l) l = none := by
  induction m with
  | nil => rfl
  | cons p rest ih =>
      by_cases h : p.1 = l
      · simpa [delKey, List.filter_cons, h] using ih
      · simp only [delKey, List.filter_cons] at ih ⊢
        simp [h, lookupKey, ih]

/-- C1 counterexample: the expected stdout lines the spec lists for the example
scenario do not match the program; from the second line on, the listed
indentation exceeds two spaces per group level. -/
theorem scenario_lines_cex :
    scenarioC1Lines ≠
      ["  outer", "    hello", "      inner", "        world", "done"] := by
  decide

/-- C1 (amended): the stdout lines of the scenario, ignoring styling and the
partial-line clears, are exactly "  outer", "  hello", "    inner",
"    world", "done" — each line is indented by two spaces per group-depth
level at the time of writing, the title line counting the depth increment of
its own group. -/
theorem scenario_lines_amended :
    scenarioC1Lines = ["  outer", "  hello", "    inner", "    world", "done"] := by
  decide

theorem runGroupCalls_depth (cs : List GroupCall) : ∀ st : ConsoleState,
    (∀ n, n ≤ cs.length →
      countClose (cs.take n) ≤ st.groupDepth + countOpen (cs.take n)) →
    (runGroupCalls st cs).groupDepth + countClose cs =
      st.groupDepth + countOpen cs := by
  induction cs with
  | nil =>
      intro st _
      simp [runGroupCalls, countOpen, countClose]
  | cons c rest ih =>
      intro st h
      cases c with
      | openGroup =>
          have hdep := group_groupDepth st none []
          have h' : ∀ n, n ≤ rest.length →
              countClose (rest.take n) ≤
                (CustomConsole.group st).groupDepth + countOpen (rest.take n) := by
            intro n hn
            have hh := h (n + 1) (by simp [List.length_cons]; omega)
            simp only [List.take_succ_cons, countOpen, countClose] at hh
            omega
          have hrun := ih (CustomConsole.group st) h'
          rw [runGroupCalls]
          simp only [countOpen, countClose]
          omega
      | closeGroup =>
          have h1 := h 1 (by simp [List.length_cons])
          simp only [List.take_succ_cons, List.take_zero, countOpen,
            countClose] at h1
          have hdep := groupEnd_groupDepth st
          have h' : ∀ n, n ≤ rest.length →
              countClose (rest.take n) ≤
                (CustomConsole.groupEnd st).groupDepth + countOpen (rest.take n) := by
            intro n hn
            have hh := h (n + 1) (by simp [List.length_cons]; omega)
            simp only [List.take_succ_cons, countOpen, countClose] at hh
            omega
          have hrun := ih (CustomConsole.groupEnd st) h'
          rw [runGroupCalls]
          simp only [countOpen, countClose]
          omega

/-- C2 counterexample: for the sequence `groupEnd(); group()` the final depth
is 1, while max(0, #group − #groupEnd) = 0 — clamping at zero mid-sequence
breaks the unconditional formula. -/
theorem groupDepth_net_cex :
    ((runGroupCalls CustomConsole.new gcCexSeq).groupDepth : Int) ≠
      max 0 ((countOpen gcCexSeq : Int) - (countClose gcCexSeq : Int)) := by
  decide

/-- C2 (amended): when no prefix of the sequence has more `groupEnd` than
`group` calls, the final depth equals #group − #groupEnd (hence max(0, net));
moreover `groupEnd` at depth 0 is a no-op, and the depth is never negative
after any call sequence. -/
theorem groupDepth_net_amended (cs : List GroupCall)
    (h : ∀ n, n ≤ cs.length →
      countClose (cs.take n) ≤ countOpen (cs.take n)) :
    (runGroupCalls CustomConsole.new cs).groupDepth =
        countOpen cs - countClose cs
    ∧ (∀ st : ConsoleState, st.groupDepth = 0 → CustomConsole.groupEnd st = st)
    ∧ (∀ cs' : List GroupCall,
        0 ≤ ((runGroupCalls CustomConsole.new cs').groupDepth : Int)) := by
  refine ⟨?_, ?_, ?_⟩
  · have hrun := runGroupCalls_depth cs CustomConsole.new (by
      intro n hn
      simpa [CustomConsole.new] using h n hn)
    have hc := h cs.length (le_refl _)
    rw [List.take_length] at hc
    have h0 : CustomConsole.new.groupDepth = 0 := rfl
    rw [h0] at hrun
    omega
  · intro st hst
    rw [CustomConsole.groupEnd]
    simp [hst]
  · intro cs'
    omega

/-- Witness for C2 on the sequence group, group, groupEnd. -/
theorem groupDepth_net_amended_witness :
    (∀ n, n ≤ gcWitnessSeq.length →
      countClose (gcWitnessSeq.take n) ≤ countOpen (gcWitnessSeq.take n))
    ∧ ((runGroupCalls CustomConsole.new gcWitnessSeq).groupDepth =
          countOpen gcWitnessSeq - countClose gcWitnessSeq
       ∧ (∀ st : ConsoleState, st.groupDepth = 0 →
            CustomConsole.groupEnd st = st)
       ∧ (∀ cs' : List GroupCall,
            0 ≤ ((runGroupCalls CustomConsole.new cs').groupDepth : Int))) :=
  ⟨by decide, groupDepth_net_amended gcWitnessSeq (by decide)⟩

/-- C4: `time` is a no-op whenever a timer with the label is already running
(it does not replace the stored start instant), so after `time(L)` at `t1`
and a second `time(L)` at `t2`, the timer still holds `t1` and a `timeEnd(L)`
at `t3` logs the elapsed time `t3 - t1`, measured from the first call. -/
theorem time_running_noop (st st2 : ConsoleState) (L : String) (t1 t2 t3 : Int)
    (hnone : lookupKey st.timers L = none)
    (hrun : (lookupKey st2.timers L).isSome = true) :
    CustomConsole.time st2 t2 L = st2
    ∧ CustomConsole.time (CustomConsole.time st t1 L) t2 L =
        CustomConsole.time st t1 L
    ∧ lookupKey (CustomConsole.time (CustomConsole.time st t1 L) t2 L).timers
        L = some t1
    ∧ (CustomConsole.timeEnd
          (CustomConsole.time (CustomConsole.time st t1 L) t2 L) t3 L).stdout =
        (CustomConsole.time st t1 L).stdout ++ [OutEvent.clear,
          OutEvent.write (st.formatBuffer LogType.time
            (indentStr st.groupDepth ++ (L ++ ": " ++ formatTime (t3 - t1))))] := by
  have h1 : CustomConsole.time st t1 L =
      { st with timers := setKey st.timers L t1 } := by
    rw [CustomConsole.time, hnone]
    rfl
  have hl : lookupKey (CustomConsole.time st t1 L).timers L = some t1 := by
    rw [h1]
    exact lookupKey_setKey_self st.timers L t1
  have h2 : CustomConsole.time (CustomConsole.time st t1 L) t2 L =
      CustomConsole.time st t1 L := by
    rw [CustomConsole.time, hl]
    rfl
  refine ⟨?_, h2, ?_, ?_⟩
  · rw [CustomConsole.time]
    rw [hrun]
    rfl
  · rw [h2]
    exact hl
  · rw [h2, CustomConsole.timeEnd, hl]
    rw [h1]
    rfl

/-- Witness for C4: fresh logger, first `time` at 10, second at 20, `timeEnd`
at 35. -/
theorem time_running_noop_witness :
    (lookupKey CustomConsole.new.timers "t" = none
     ∧ (lookupKey (CustomConsole.time CustomConsole.new 0 "t").timers
          "t").isSome = true)
    ∧ (CustomConsole.time (CustomConsole.time CustomConsole.new 0 "t") 20 "t" =
          CustomConsole.time CustomConsole.new 0 "t"
       ∧ CustomConsole.time
            (CustomConsole.time CustomConsole.new 10 "t") 20 "t" =
          CustomConsole.time CustomConsole.new 10 "t"
       ∧ lookupKey (CustomConsole.time
            (CustomConsole.time CustomConsole.new 10 "t") 20 "t").timers "t" =
          some 10
       ∧ (CustomConsole.timeEnd (CustomConsole.time
            (CustomConsole.time CustomConsole.new 10 "t") 20 "t") 35 "t").stdout =
          (CustomConsole.time CustomConsole.new 10 "t").stdout ++ [OutEvent.clear,
            OutEvent.write (CustomConsole.new.formatBuffer LogType.time
              (indentStr CustomConsole.new.groupDepth ++
                ("t" ++ ": " ++ formatTime (35 - 10))))]) :=
  ⟨⟨rfl, rfl⟩, time_running_noop CustomConsole.new
    (CustomConsole.time CustomConsole.new 0 "t") "t" 10 20 35 rfl rfl⟩

/-- C5: with a timer running for the label, `timeLog` logs the elapsed time
but leaves the whole timers mapping (and counters and depth) unchanged, so a
subsequent `timeEnd` still finds the timer, logs the elapsed time from the
original start instant and removes it. -/
theorem timeLog_keeps_timer (st : ConsoleState) (L : String)
    (s now now2 : Int) (data : List String)
    (hrun : lookupKey st.timers L = some s) :
    (CustomConsole.timeLog st now L data).timers = st.timers
    ∧ (CustomConsole.timeLog st now L data).counters = st.counters
    ∧ (CustomConsole.timeLog st now L data).groupDepth = st.groupDepth
    ∧ (CustomConsole.timeLog st now L data).stdout = st.stdout ++
        [OutEvent.clear, OutEvent.write (st.formatBuffer LogType.time
          (indentStr st.groupDepth ++
            formatArgs (some (L ++ ": " ++ formatTime (now - s))) data))]
    ∧ lookupKey (CustomConsole.timeLog st now L data).timers L = some s
    ∧ (CustomConsole.timeEnd (CustomConsole.timeLog st now L data)
          now2 L).stdout =
        (CustomConsole.timeLog st now L data).stdout ++ [OutEvent.clear,
          OutEvent.write (st.formatBuffer LogType.time
            (indentStr st.groupDepth ++ (L ++ ": " ++ formatTime (now2 - s))))]
    ∧ lookupKey (CustomConsole.timeEnd (CustomConsole.timeLog st now L data)
          now2 L).timers L = none := by
  have hTL : CustomConsole.timeLog st now L data =
      CustomConsole._log st LogType.time
        (formatArgs (some (L ++ ": " ++ formatTime (now - s))) data) := by
    rw [CustomConsole.timeLog, hrun]
  have hTLtimers : (CustomConsole.timeLog st now L data).timers = st.timers := by
    rw [hTL]
    rfl
  have hl : lookupKey (CustomConsole.timeLog st now L data).timers L = some s := by
    rw [hTLtimers]
    exact hrun
  refine ⟨hTLtimers, by rw [hTL]; rfl, by rw [hTL]; rfl, by rw [hTL]; rfl, hl,
    ?_, ?_⟩
  · rw [CustomConsole.timeEnd, hl, hTL]
    rfl
  · rw [CustomConsole.timeEnd, hl]
    exact lookupKey_delKey_self _ L

/-- C7: from any state, `countReset(L)` then `count(L)` logs `L: 1` (through
the format hook, indented by the current depth) and stores counter value 1
for `L`. -/
theorem countReset_then_count (st : ConsoleState) (L : String) :
    (CustomConsole.count (CustomConsole.countReset st L) L).stdout =
        st.stdout ++ [OutEvent.clear,
          OutEvent.write (st.formatBuffer LogType.count
            (indentStr st.groupDepth ++ (L ++ ": 1")))]
    ∧ lookupKey (CustomConsole.count (CustomConsole.countReset st L)
        L).counters L = some 1 := by
  have hguard : CustomConsole.countersAfterGuard (setKey st.counters L 0) L =
      setKey (setKey st.counters L 0) L 0 := by
    rw [CustomConsole.countersAfterGuard, lookupKey_setKey_self]
    rfl
  have hval : (lookupKey (CustomConsole.countersAfterGuard (setKey st.counters L 0) L)
      L).getD 0 + 1 = (1 : Int) := by
    rw [hguard, lookupKey_setKey_self]
    decide
  constructor
  · show st.stdout ++ [OutEvent.clear,
        OutEvent.write (st.formatBuffer LogType.count
          (indentStr st.groupDepth ++ (L ++ ": " ++
            toString ((lookupKey (CustomConsole.countersAfterGuard
              (setKey st.counters L 0) L) L).getD 0 + 1))))] =
      st.stdout ++ [OutEvent.clear,
        OutEvent.write (st.formatBuffer LogType.count
          (indentStr st.groupDepth ++ (L ++ ": 1")))]
    rw [hval, String.append_assoc]
    rfl
  · show lookupKey (setKey (CustomConsole.countersAfterGuard (setKey st.counters L 0) L) L
        ((lookupKey (CustomConsole.countersAfterGuard (setKey st.counters L 0) L)
          L).getD 0 + 1)) L = some 1
    rw [hval]
    exact lookupKey_setKey_self _ _ _

theorem lookupKey_getD_nonneg (m : List (String × Int)) (L : String)
    (hm : countersNonneg m) : 0 ≤ (lookupKey m L).getD 0 := by
  cases hl : lookupKey m L with
  | none => simp
  | some v => simpa using hm _ (mem_of_lookupKey m L v hl)

theorem countersAfterGuard_nonneg (m : List (String × Int)) (L : String)
    (hm : countersNonneg m) : countersNonneg (CustomConsole.countersAfterGuard m L) := by
  rw [CustomConsole.countersAfterGuard]
  split
  · exact setKey_forall _ m L 0 hm (le_refl 0)
  · exact hm

theorem count_counters_nonneg (st : ConsoleState) (L : String)
    (hm : countersNonneg st.counters) :
    countersNonneg (CustomConsole.count st L).counters := by
  show countersNonneg (setKey (CustomConsole.countersAfterGuard st.counters L) L
    ((lookupKey (CustomConsole.countersAfterGuard st.counters L) L).getD 0 + 1))
  have h1 := countersAfterGuard_nonneg st.counters L hm
  have h2 := lookupKey_getD_nonneg (CustomConsole.countersAfterGuard st.counters L) L h1
  exact setKey_forall _ _ _ _ h1 (by omega)

theorem runCountOps_nonneg (ops : List CountOp) : ∀ st : ConsoleState,
    countersNonneg st.counters →
    countersNonneg (runCountOps st ops).counters := by
  induction ops with
  | nil => intro st h; exact h
  | cons op rest ih =>
      intro st h
      cases op with
      | doCount l =>
          rw [runCountOps]
          exact ih _ (count_counters_nonneg st l h)
      | doReset l =>
          rw [runCountOps]
          apply ih
          show countersNonneg (setKey st.counters l 0)
          exact setKey_forall _ _ _ _ h (le_refl 0)

/-- C10: after any sequence of `count`/`countReset` calls on a fresh logger,
every stored counter value is non-negative, and the next `count(L)` logs a
value `n` with `n ≥ 1` and stores it — the line `L: 0` is never emitted. -/
theorem count_logs_positive (ops : List CountOp) (L : String) :
    (∀ p ∈ (runCountOps CustomConsole.new ops).counters, 0 ≤ p.2)
    ∧ ∃ n : Int, 1 ≤ n
        ∧ (CustomConsole.count (runCountOps CustomConsole.new ops) L).stdout =
            (runCountOps CustomConsole.new ops).stdout ++ [OutEvent.clear,
              OutEvent.write ((runCountOps CustomConsole.new ops).formatBuffer
                LogType.count (indentStr
                  (runCountOps CustomConsole.new ops).groupDepth ++
                  (L ++ ": " ++ toString n)))]
        ∧ lookupKey (CustomConsole.count (runCountOps CustomConsole.new ops)
            L).counters L = some n := by
  have hnn : countersNonneg (runCountOps CustomConsole.new ops).counters :=
    runCountOps_nonneg ops CustomConsole.new
      (by intro p hp; exact absurd hp (by simp [CustomConsole.new]))
  refine ⟨hnn,
    (lookupKey (CustomConsole.countersAfterGuard
      (runCountOps CustomConsole.new ops).counters L) L).getD 0 + 1,
    ?_, rfl, ?_⟩
  · have h2 := lookupKey_getD_nonneg
      (CustomConsole.countersAfterGuard (runCountOps CustomConsole.new ops).counters L) L
      (countersAfterGuard_nonneg _ L hnn)
    omega
  · exact lookupKey_setKey_self _ _ _

/-- Witness for C5: timer "t" started at 7, `timeLog` at 9, `timeEnd` at 12. -/
theorem timeLog_keeps_timer_witness :
    lookupKey (CustomConsole.time CustomConsole.new 7 "t").timers "t" = some 7
    ∧ ((CustomConsole.timeLog (CustomConsole.time CustomConsole.new 7 "t")
          9 "t" []).timers =
            (CustomConsole.time CustomConsole.new 7 "t").timers
       ∧ (CustomConsole.timeLog (CustomConsole.time CustomConsole.new 7 "t")
            9 "t" []).counters =
              (CustomConsole.time CustomConsole.new 7 "t").counters
       ∧ (CustomConsole.timeLog (CustomConsole.time CustomConsole.new 7 "t")
            9 "t" []).groupDepth =
              (CustomConsole.time CustomConsole.new 7 "t").groupDepth
       ∧ (CustomConsole.timeLog (CustomConsole.time CustomConsole.new 7 "t")
            9 "t" []).stdout =
              (CustomConsole.time CustomConsole.new 7 "t").stdout ++
                [OutEvent.clear, OutEvent.write
                  ((CustomConsole.time CustomConsole.new 7 "t").formatBuffer
                    LogType.time
                    (indentStr (CustomConsole.time
                        CustomConsole.new 7 "t").groupDepth ++
                      formatArgs (some ("t" ++ ": " ++ formatTime (9 - 7))) []))]
       ∧ lookupKey (CustomConsole.timeLog
            (CustomConsole.time CustomConsole.new 7 "t") 9 "t" []).timers "t" =
              some 7
       ∧ (CustomConsole.timeEnd (CustomConsole.timeLog
            (CustomConsole.time CustomConsole.new 7 "t") 9 "t" [])
              12 "t").stdout =
            (CustomConsole.timeLog (CustomConsole.time CustomConsole.new 7 "t")
              9 "t" []).stdout ++ [OutEvent.clear, OutEvent.write
                ((CustomConsole.time CustomConsole.new 7 "t").formatBuffer
                  LogType.time
                  (indentStr (CustomConsole.time
                      CustomConsole.new 7 "t").groupDepth ++
                    ("t" ++ ": " ++ formatTime (12 - 7))))]
       ∧ lookupKey (CustomConsole.timeEnd (CustomConsole.timeLog
            (CustomConsole.time CustomConsole.new 7 "t") 9 "t" [])
              12 "t").timers "t" = none) :=
  ⟨rfl, timeLog_keeps_timer (CustomConsole.time CustomConsole.new 7 "t")
    "t" 7 9 12 [] rfl⟩
